import Mathlib

/-!
Verification of the PDF outline extractor (`pdf_outline_extractor.py`).

The Python source is shallowly embedded below:
* floats (font sizes, page coordinates) are modelled as `ℚ`,
* Python strings are modelled as `List Char` (ASCII fragment of the
  Unicode-aware Python predicates),
* fallible operations (document access, `page.get_text`, per-page OCR)
  are modelled with `Option`/`Except`,
* Python's stable `list.sort` is modelled by `List.insertionSort` with a
  total preorder, which inserts an earlier element in front of every
  later element with an equal key, exactly the stability guarantee of
  Python's sort.

The rational arithmetic of `Batteries` is sealed behind `@[irreducible]`;
it is unsealed here so that concrete runs of the embedded extractor can be
evaluated by `decide` inside the kernel.
-/

set_option allowUnsafeReducibility true

attribute [semireducible] Rat.ofScientific Rat.mul Rat.inv Rat.add Rat.sub

namespace PdfOutline

/-- Python whitespace for `str.strip` and the regex class `\s`
(ASCII fragment: space, tab, newline, carriage return, form feed,
vertical tab). -/
def isPySpace (c : Char) : Bool :=
  c = ' ' || c = '\t' || c = '\n' || c = '\r' || c = '\x0c' || c = '\x0b'

/-- Python `str.strip()`: drop whitespace from both ends. -/
def pyStrip (l : List Char) : List Char :=
  ((l.dropWhile isPySpace).reverse.dropWhile isPySpace).reverse

/-- Python `str.lower()` (ASCII fragment). -/
def pyLower (l : List Char) : List Char :=
  l.map Char.toLower

/-- Python `str.split` at newline: splitting the empty string gives a
singleton list holding the empty string, exactly like Python. -/
def splitNl : List Char → List (List Char)
  | [] => [[]]
  | c :: t =>
    if c = '\n' then [] :: splitNl t
    else
      match splitNl t with
      | l :: ls => (c :: l) :: ls
      | [] => [[c]]

/-- Does the list start with the four characters of the word bold?
Helper for the Python substring test in the bold-font heuristic. -/
def startsWithBold : List Char → Bool
  | 'b' :: 'o' :: 'l' :: 'd' :: _ => true
  | _ => false

/-- Python substring test specialised to the needle used by the code:
the word bold occurs somewhere in the string. -/
def containsBold : List Char → Bool
  | [] => false
  | c :: t => startsWithBold (c :: t) || containsBold t

/-- A text span as delivered by PyMuPDF: raw text, font size, font name,
style flag bitmask, and bounding box `(x0, y0, x1, y1)`. -/
structure Span where
  text : List Char
  size : ℚ
  font : List Char
  flags : ℕ
  x0 : ℚ
  y0 : ℚ
  x1 : ℚ
  y1 : ℚ
deriving DecidableEq

/-- One page of the document.  `spans = none` models `page.get_text`
raising (an unreadable or encrypted page); `ocrText = none` models the
per-page OCR call raising (caught and skipped by the OCR pipeline). -/
structure Page where
  width : ℚ
  height : ℚ
  spans : Option (List Span)
  ocrText : Option (List Char)
deriving DecidableEq

/-- An opened PDF document: its list of pages. -/
structure Document where
  pages : List Page
deriving DecidableEq

/-- `HeadingInfo` from the source: a layout heading candidate. -/
structure HeadingInfo where
  level : String
  text : List Char
  page : ℕ
  font_size : ℚ
  is_bold : Bool
  is_centered : Bool
deriving DecidableEq

/-- One entry of the output outline (level, text, page). -/
structure OutlineEntry where
  level : String
  text : List Char
  page : ℕ
deriving DecidableEq

/-- `DocumentOutline` from the source. -/
structure DocumentOutline where
  title : List Char
  outline : List OutlineEntry
deriving DecidableEq

/-- Error taxonomy of the spec: `documentError` is the
`ValueError` raised by both pipelines on a zero-page document;
`pageTextError` models `page.get_text` raising during layout
extraction. -/
inductive ExtractionError where
  | documentError
  | pageTextError
deriving DecidableEq

/-- The sentinel title. -/
def untitledTitle : List Char :=
  "Untitled Document".toList

/-- Bold test of the source: the font name lowercased contains the word
bold, or bit `2 ^ 4` of the style flags is set. -/
def isBoldSpan (s : Span) : Bool :=
  containsBold (pyLower s.font) || s.flags &&& 16 != 0

/-- `_is_text_centered`: the horizontal midpoint of the bbox is within
`page_width * tolerance` of the page's horizontal center (strict `<`).
The source's default tolerance `0.1` is passed explicitly at every call,
as no caller overrides it. -/
def isTextCentered (x0 x1 page_width tolerance : ℚ) : Bool :=
  let text_x := (x0 + x1) / 2
  let page_center := page_width / 2
  decide (|text_x - page_center| < page_width * tolerance)

/-- The title-candidate filter of `_extract_title`: strip the span text,
skip empty text, keep `(text, font_size)` iff font size `> 14`, bold and
centered. -/
def titleCandidates (spans : List Span) (page_width : ℚ) : List (List Char × ℚ) :=
  spans.filterMap fun s =>
    let text := pyStrip s.text
    if text = [] then none
    else if s.size > 14 ∧ isBoldSpan s = true ∧ isTextCentered s.x0 s.x1 page_width 0.1 = true
    then some (text, s.size)
    else none

/-- Key order of `title_candidates.sort(reverse := descending by font
size)`: an earlier candidate stays in front of a later one with an equal
size, as in Python's stable sort. -/
def titleOrd : (List Char × ℚ) → (List Char × ℚ) → Prop := fun a b => b.2 ≤ a.2

instance : DecidableRel titleOrd := fun a b => inferInstanceAs (Decidable (b.2 ≤ a.2))

/-- `_extract_title`: sort the candidates by descending font size and
return the text of the first one; the sentinel if there is none. -/
def extractTitle (spans : List Span) (page_width : ℚ) : List Char :=
  match ((titleCandidates spans page_width).insertionSort titleOrd).head? with
  | some c => c.1
  | none => untitledTitle

/-- The `HeadingInfo` built for a kept span (level is assigned later). -/
def mkHeading (s : Span) (page_num : ℕ) (page_width : ℚ) : HeadingInfo :=
  { level := ""
    text := pyStrip s.text
    page := page_num
    font_size := s.size
    is_bold := isBoldSpan s
    is_centered := isTextCentered s.x0 s.x1 page_width 0.1 }

/-- The loop body of `_extract_headings_from_page` on one span: strip
the text, skip it when empty or shorter than 3 characters, skip it when
longer than 100 characters, keep the span iff font size `≥ 10` and (bold
or centered). -/
def spanFilter (page_num : ℕ) (page_width : ℚ) (s : Span) : Option HeadingInfo :=
  let text := pyStrip s.text
  if text = [] ∨ text.length < 3 then none
  else if 100 < text.length then none
  else if 10 ≤ s.size ∧ (isBoldSpan s = true ∨ isTextCentered s.x0 s.x1 page_width 0.1 = true)
  then some (mkHeading s page_num page_width)
  else none

/-- `_extract_headings_from_page`: run the span filter over the page's
spans in order. -/
def extractHeadingsFromPage (spans : List Span) (page_num : ℕ) (page_width : ℚ) :
    List HeadingInfo :=
  spans.filterMap (spanFilter page_num page_width)

/-- Key order of `sorted(headings, key := font size, reverse := True)`. -/
def sizeDescOrd : HeadingInfo → HeadingInfo → Prop := fun a b => b.font_size ≤ a.font_size

instance : DecidableRel sizeDescOrd := fun a b => inferInstanceAs (Decidable (b.font_size ≤ a.font_size))

/-- The rank dictionary of the final sort (H1 is rank 1, H2 rank 2,
H3 rank 3; other strings never occur after classification). -/
def levelRank (level : String) : ℕ :=
  if level = "H1" then 1 else if level = "H2" then 2 else if level = "H3" then 3 else 4

/-- Key order of `sort(key := (page, level rank))`: ascending
lexicographic on the pair. -/
def pageLevelOrd : HeadingInfo → HeadingInfo → Prop := fun a b =>
  a.page < b.page ∨ (a.page = b.page ∧ levelRank a.level ≤ levelRank b.level)

instance : DecidableRel pageLevelOrd := fun a b =>
  inferInstanceAs (Decidable (a.page < b.page ∨ (a.page = b.page ∧ levelRank a.level ≤ levelRank b.level)))

instance : IsTotal HeadingInfo pageLevelOrd where
  total a b := by
    rcases Nat.lt_trichotomy a.page b.page with h | h | h
    · exact Or.inl (Or.inl h)
    · rcases Nat.le_total (levelRank a.level) (levelRank b.level) with h2 | h2
      · exact Or.inl (Or.inr ⟨h, h2⟩)
      · exact Or.inr (Or.inr ⟨h.symm, h2⟩)
    · exact Or.inr (Or.inl h)

instance : IsTrans HeadingInfo pageLevelOrd where
  trans a b c hab hbc := by
    rcases hab with h1 | ⟨h1, h1r⟩ <;> rcases hbc with h2 | ⟨h2, h2r⟩
    · exact Or.inl (h1.trans h2)
    · exact Or.inl (h2 ▸ h1)
    · exact Or.inl (h1 ▸ h2)
    · exact Or.inr ⟨h1.trans h2, h1r.trans h2r⟩

/-- Python `max` over a nonempty list of rationals (`0` is never used:
the classifier guards against the empty list first). -/
def listMax : List ℚ → ℚ
  | [] => 0
  | a :: t => t.foldl max a

/-- Python `min` over a nonempty list of rationals. -/
def listMin : List ℚ → ℚ
  | [] => 0
  | a :: t => t.foldl min a

/-- Level assignment of the `size_range == 0` branch: all candidates
share one size, classify by formatting. -/
def assignByFormat (h : HeadingInfo) : HeadingInfo :=
  { h with level :=
      if h.is_bold && h.is_centered then "H1"
      else if h.is_bold then "H2"
      else "H3" }

/-- Level assignment of the normalized-size branch with the fixed
thresholds `0.7` and `0.4`. -/
def assignBySize (min_size size_range : ℚ) (h : HeadingInfo) : HeadingInfo :=
  let normalized_size := (h.font_size - min_size) / size_range
  { h with level :=
      if normalized_size > 0.7 then "H1"
      else if normalized_size > 0.4 then "H2"
      else "H3" }

/-- `_classify_headings`: on a nonempty list, sort by descending font
size, compute the size statistics, assign the levels, then sort by
(page, level rank). -/
def classifyHeadings (headings : List HeadingInfo) : List HeadingInfo :=
  match headings with
  | [] => []
  | _ :: _ =>
    let sorted_headings := headings.insertionSort sizeDescOrd
    let font_sizes := sorted_headings.map fun h => h.font_size
    let max_size := listMax font_sizes
    let min_size := listMin font_sizes
    let size_range := max_size - min_size
    let assigned :=
      if size_range = 0 then sorted_headings.map assignByFormat
      else sorted_headings.map (assignBySize min_size size_range)
    assigned.insertionSort pageLevelOrd

/-- The heading-collection loop of `_extract_layout_based`: every page's
spans are fetched (`page.get_text` may raise) and filtered through
`extractHeadingsFromPage` with the width captured from the first page;
pages are numbered from 1. -/
def collectHeadings : List Page → ℚ → ℕ → Except ExtractionError (List HeadingInfo)
  | [], _, _ => .ok []
  | p :: rest, page_width, n =>
    match p.spans with
    | none => .error .pageTextError
    | some spans =>
      match collectHeadings rest page_width (n + 1) with
      | .error e => .error e
      | .ok hs => .ok (extractHeadingsFromPage spans n page_width ++ hs)

/-- `_extract_layout_based`: fail on a zero-page document, capture the
first page's width, extract the title from the first page, collect and
classify the heading candidates of every page, and emit the outline. -/
def extractLayoutBased (d : Document) : Except ExtractionError DocumentOutline :=
  match d.pages with
  | [] => .error .documentError
  | first_page :: _ =>
    let page_width := first_page.width
    match first_page.spans with
    | none => .error .pageTextError
    | some first_spans =>
      let title := extractTitle first_spans page_width
      match collectHeadings d.pages page_width 1 with
      | .error e => .error e
      | .ok headings =>
        let classified := classifyHeadings headings
        .ok ⟨title, classified.map fun h => ⟨h.level, h.text, h.page⟩⟩

/-- End-of-input test for the Python regex anchor at the end of a
pattern, which matches at the end of the string or just before one final
newline. -/
def atEnd : List Char → Bool
  | [] => true
  | c :: rest => c = '\n' && rest.isEmpty

/-- The regex for a purely numeric line: one or more digits spanning the
whole line. -/
def matchPureNumber (t : List Char) : Bool :=
  !(t.takeWhile Char.isDigit).isEmpty && atEnd (t.dropWhile Char.isDigit)

/-- Character class of the all-caps pattern after its first letter. -/
def isCapsOrSpace (c : Char) : Bool :=
  c.isUpper || isPySpace c

/-- The all-caps heading regex: an uppercase letter followed by one or
more uppercase letters or whitespace, spanning the whole line. -/
def matchAllCaps : List Char → Bool
  | [] => false
  | c :: rest =>
    c.isUpper && !(rest.takeWhile isCapsOrSpace).isEmpty && atEnd (rest.dropWhile isCapsOrSpace)

/-- The numbered-heading regex used by `_looks_like_heading`: digits, a
dot, whitespace, then an uppercase letter; an unanchored match at the
start of the line. -/
def matchNumberedCap (t : List Char) : Bool :=
  !(t.takeWhile Char.isDigit).isEmpty &&
    match t.dropWhile Char.isDigit with
    | '.' :: r =>
      !(r.takeWhile isPySpace).isEmpty &&
        match r.dropWhile isPySpace with
        | u :: _ => u.isUpper
        | [] => false
    | _ => false

/-- The numbered prefix regex used by `_classify_ocr_heading`: digits, a
dot, whitespace; an unanchored match at the start of the line. -/
def matchNumberedDot (t : List Char) : Bool :=
  !(t.takeWhile Char.isDigit).isEmpty &&
    match t.dropWhile Char.isDigit with
    | '.' :: r => !(r.takeWhile isPySpace).isEmpty
    | _ => false

/-- States of the deterministic matcher for the Title-Case regex: an
uppercase letter, one or more lowercase letters, then any number of
groups of whitespace followed by another such word, spanning the whole
line.  The character classes of adjacent regex pieces are disjoint, so
the backtracking regex engine and this one-pass automaton agree. -/
inductive TCState where
  | wantUpper
  | wantLower
  | inLowers
  | inSpaces

/-- One-pass run of the Title-Case regex from a given state.  A single
trailing newline is accepted in the accepting state, matching the
semantics of the Python end anchor. -/
def tcRun : TCState → List Char → Bool
  | .inLowers, [] => true
  | _, [] => false
  | .inLowers, ['\n'] => true
  | .wantUpper, c :: rest => c.isUpper && tcRun .wantLower rest
  | .wantLower, c :: rest => c.isLower && tcRun .inLowers rest
  | .inLowers, c :: rest =>
    if c.isLower then tcRun .inLowers rest
    else isPySpace c && tcRun .inSpaces rest
  | .inSpaces, c :: rest =>
    if isPySpace c then tcRun .inSpaces rest
    else c.isUpper && tcRun .wantLower rest

/-- The Title-Case words regex of `_looks_like_heading`. -/
def matchTitleCase (t : List Char) : Bool :=
  tcRun .wantUpper t

/-- Python `str.isupper()` (ASCII fragment): at least one cased
character and no lowercase one. -/
def pyIsUpper (t : List Char) : Bool :=
  t.any Char.isAlpha && t.all fun c => !c.isLower

/-- The lowercased non-heading words rejected by `_looks_like_heading`. -/
def rejectWords : List (List Char) :=
  ["page".toList, "continued".toList, "...".toList]

/-- `_looks_like_heading`. -/
def looksLikeHeading (text : List Char) : Bool :=
  if matchPureNumber text then false
  else if text.length < 3 ∨ 80 < text.length then false
  else if pyLower text ∈ rejectWords then false
  else matchAllCaps text || matchNumberedCap text || matchTitleCase text

/-- `_classify_ocr_heading`. -/
def classifyOcrHeading (text : List Char) : String :=
  if pyIsUpper text = true ∧ text.length < 30 then "H1"
  else if matchNumberedDot text then "H2"
  else "H3"

/-- One recognized OCR line together with its 1-based page number. -/
structure OcrLine where
  text : List Char
  page : ℕ
deriving DecidableEq

/-- The per-page OCR line collection: split the recognized blob at
newlines, strip each line, keep the nonempty ones longer than 2
characters. -/
def collectPageLines (blob : List Char) (page_num : ℕ) : List OcrLine :=
  (splitNl blob).filterMap fun line =>
    let s := pyStrip line
    if s ≠ [] ∧ 2 < s.length then some ⟨s, page_num⟩ else none

/-- The page loop of `_extract_ocr_based`: pages numbered from 1; a page
whose OCR call raises contributes no lines and is skipped. -/
def collectOcrLines : List Page → ℕ → List OcrLine
  | [], _ => []
  | p :: rest, n =>
    (match p.ocrText with
     | none => []
     | some blob => collectPageLines blob n) ++ collectOcrLines rest (n + 1)

/-- The OCR title search on the first page's lines: the first line whose
stripped length is strictly between 3 and 100; the sentinel when no line
qualifies. -/
def firstTitleLine : List (List Char) → List Char
  | [] => untitledTitle
  | line :: rest =>
    let s := pyStrip line
    if s ≠ [] ∧ 3 < s.length ∧ s.length < 100 then s else firstTitleLine rest

/-- The OCR title: searched only on the first page, and only when its
OCR call succeeded; the sentinel otherwise. -/
def ocrTitle (pages : List Page) : List Char :=
  match pages with
  | [] => untitledTitle
  | p :: _ =>
    match p.ocrText with
    | none => untitledTitle
    | some blob => firstTitleLine (splitNl blob)

/-- `_detect_headings_from_ocr`: keep each line passing the heading test,
in encounter order, with its rank attached. -/
def detectHeadingsFromOcr (text_lines : List OcrLine) : List OutlineEntry :=
  text_lines.filterMap fun li =>
    if looksLikeHeading li.text then some ⟨classifyOcrHeading li.text, li.text, li.page⟩
    else none

/-- `_extract_ocr_based`: fail on a zero-page document, otherwise OCR
every page and detect the headings. -/
def extractOcrBased (d : Document) : Except ExtractionError DocumentOutline :=
  match d.pages with
  | [] => .error .documentError
  | _ :: _ =>
    .ok ⟨ocrTitle d.pages, detectHeadingsFromOcr (collectOcrLines d.pages 1)⟩

/-- `extract_outline`: try the layout pipeline; on any error run the OCR
pipeline instead, whose own error (if any) propagates. -/
def extractOutline (d : Document) : Except ExtractionError DocumentOutline :=
  match extractLayoutBased d with
  | .ok result => .ok result
  | .error _ => extractOcrBased d

/-- Selection of the title among the candidates as the spec words it:
the first candidate (in encounter order) achieving the maximal font
size, `none` when there is no candidate. -/
def findFirstMax : List (List Char × ℚ) → Option (List Char × ℚ)
  | [] => none
  | a :: t =>
    match findFirstMax t with
    | none => some a
    | some m => if a.2 < m.2 then some m else some a

/-- The heading-candidate keep-test exactly as claim C1 words it, with
the centering computed against the page's own width.  This follows the
spec's words; the source computes centering against the first page's
width instead. -/
def keepSpanSpec (s : Span) (own_width : ℚ) : Bool :=
  decide (10 ≤ s.size) && (isBoldSpan s || isTextCentered s.x0 s.x1 own_width 0.1)

/-! Concrete inputs used to instantiate the theorems below. -/

/-- A plain span sitting exactly at the horizontal center of a page of
width 300, far from the center of a page of width 100. -/
def c1Span : Span :=
  { text := "Heading II".toList, size := 12, font := "Helvetica".toList, flags := 0,
    x0 := 100, y0 := 0, x1 := 200, y1 := 10 }

/-- First page of the mixed-width document: width 100, no spans. -/
def c1PageOne : Page :=
  { width := 100, height := 200, spans := some [], ocrText := none }

/-- Second page of the mixed-width document: width 300, holding
`c1Span`. -/
def c1PageTwo : Page :=
  { width := 300, height := 200, spans := some [c1Span], ocrText := none }

/-- A two-page document whose pages have different widths. -/
def c1Doc : Document :=
  ⟨[c1PageOne, c1PageTwo]⟩

/-- A bold span of ordinary size. -/
def w7Span : Span :=
  { text := "Overview".toList, size := 12, font := "Arial-Bold".toList, flags := 0,
    x0 := 10, y0 := 0, x1 := 30, y1 := 10 }

/-- A one-page document yielding exactly one layout heading. -/
def w7Doc : Document :=
  ⟨[{ width := 100, height := 200, spans := some [w7Span], ocrText := none }]⟩

/-- A one-page document whose layout text extraction fails and whose OCR
yields two heading lines. -/
def w8Doc : Document :=
  ⟨[{ width := 100, height := 200, spans := none,
      ocrText := some ("INTRODUCTION\nThe End".toList) }]⟩

/-- A span sitting exactly at font size 10, centered and not bold. -/
def c9SpanA : Span :=
  { text := "Centered".toList, size := 10, font := "Helvetica".toList, flags := 0,
    x0 := 40, y0 := 0, x1 := 58, y1 := 10 }

/-- A bold span whose text is exactly 100 characters long. -/
def c9SpanB : Span :=
  { text := List.replicate 100 'A', size := 12, font := "Helvetica".toList, flags := 16,
    x0 := 0, y0 := 0, x1 := 10, y1 := 10 }

/-- The outline the OCR pipeline produces on `w8Doc`. -/
def w8Out : DocumentOutline :=
  ⟨"INTRODUCTION".toList,
    [⟨"H1", "INTRODUCTION".toList, 1⟩, ⟨"H3", "The End".toList, 1⟩]⟩

end PdfOutline

namespace PdfOutline

/-! Helper lemmas. -/

/-- The head of the descending stable sort of the title candidates is
the first candidate achieving the maximal font size. -/
theorem head_insertionSort_titleOrd (l : List (List Char × ℚ)) :
    (l.insertionSort titleOrd).head? = findFirstMax l := by
  induction l with
  | nil => rfl
  | cons a t ih =>
    rw [List.insertionSort]
    rcases hst : t.insertionSort titleOrd with _ | ⟨c, cs⟩
    · have hft : findFirstMax t = none := by rw [← ih, hst]; rfl
      simp [List.orderedInsert, findFirstMax, hft]
    · have hfc : findFirstMax t = some c := by rw [← ih, hst]; rfl
      rw [List.orderedInsert]
      simp only [findFirstMax, hfc]
      by_cases h : titleOrd a c
      · rw [if_pos h]
        have hlt : ¬a.2 < c.2 := not_lt.mpr h
        simp [hlt]
      · rw [if_neg h]
        have hlt : a.2 < c.2 := lt_of_not_ge h
        simp [hlt]

/-- The span filter keeps a span whose stripped text passes the length
gates and which passes the size/bold/centered test. -/
theorem spanFilter_eq_some (page_num : ℕ) (page_width : ℚ) (s : Span)
    (h1 : pyStrip s.text ≠ []) (h2 : 3 ≤ (pyStrip s.text).length)
    (h3 : (pyStrip s.text).length ≤ 100)
    (hk : 10 ≤ s.size ∧ (isBoldSpan s = true ∨ isTextCentered s.x0 s.x1 page_width 0.1 = true)) :
    spanFilter page_num page_width s = some (mkHeading s page_num page_width) := by
  simp only [spanFilter]
  rw [if_neg (not_or.mpr ⟨h1, not_lt.mpr h2⟩), if_neg (not_lt.mpr h3), if_pos hk]

/-- Whatever the span filter keeps is the heading built from its span,
and that span passed the size/bold/centered test. -/
theorem spanFilter_some_inv (page_num : ℕ) (page_width : ℚ) (s : Span) (h : HeadingInfo)
    (hf : spanFilter page_num page_width s = some h) :
    h = mkHeading s page_num page_width ∧
      10 ≤ s.size ∧ (isBoldSpan s = true ∨ isTextCentered s.x0 s.x1 page_width 0.1 = true) := by
  simp only [spanFilter] at hf
  split_ifs at hf with hc1 hc2 hc3
  exact ⟨(Option.some.inj hf).symm, hc3⟩

/-! Claim theorems. -/

/-- **C3**: on the first page, the layout title is the text of the title
candidate (font size > 14, bold, centered) with the largest font size,
ties broken by encounter order — the first candidate found at that
maximal size — and the sentinel `"Untitled Document"` when no span
qualifies. -/
theorem extractTitle_eq_firstMax (spans : List Span) (page_width : ℚ) :
    extractTitle spans page_width =
      match findFirstMax (titleCandidates spans page_width) with
      | some c => c.1
      | none => untitledTitle := by
  unfold extractTitle
  rw [head_insertionSort_titleOrd]

/-- **C4**: whenever the layout pipeline fails, the orchestrator's
result is exactly the OCR pipeline's result on the same input, and when
the OCR pipeline also fails, that second error is the orchestrator's
result. -/
theorem extractOutline_fallback (d : Document) (e : ExtractionError)
    (h : extractLayoutBased d = .error e) :
    extractOutline d = extractOcrBased d ∧
      ∀ e2 : ExtractionError, extractOcrBased d = .error e2 → extractOutline d = .error e2 := by
  have h1 : extractOutline d = extractOcrBased d := by
    unfold extractOutline
    rw [h]
  exact ⟨h1, fun e2 h2 => h1.trans h2⟩

/-- Witness for C4 at the zero-page document, on which both pipelines
fail. -/
theorem extractOutline_fallback_witness :
    extractOutline ⟨[]⟩ = extractOcrBased ⟨[]⟩ ∧
      extractOutline (⟨[]⟩ : Document) = Except.error ExtractionError.documentError := by
  have h := extractOutline_fallback ⟨[]⟩ .documentError rfl
  exact ⟨h.1, h.2 .documentError rfl⟩

/-- **C5**: on a document with zero pages, both pipelines fail with the
document error. -/
theorem zero_pages_both_document_error (d : Document) (h : d.pages = []) :
    extractLayoutBased d = .error .documentError ∧
      extractOcrBased d = .error .documentError := by
  unfold extractLayoutBased extractOcrBased
  rw [h]
  exact ⟨rfl, rfl⟩

/-- Witness for C5. -/
theorem zero_pages_both_document_error_witness :
    extractLayoutBased ⟨[]⟩ = .error .documentError ∧
      extractOcrBased ⟨[]⟩ = .error .documentError :=
  zero_pages_both_document_error ⟨[]⟩ rfl

/-- **C9**: at the filter's boundary values, a span exactly at font size
10 that is centered and not bold is kept, and a span whose stripped text
is exactly 100 characters long is kept. -/
theorem boundary_values_kept (s : Span) (page_num : ℕ) (page_width : ℚ) :
    (pyStrip s.text ≠ [] → 3 ≤ (pyStrip s.text).length → (pyStrip s.text).length ≤ 100 →
        s.size = 10 → isBoldSpan s = false → isTextCentered s.x0 s.x1 page_width 0.1 = true →
        extractHeadingsFromPage [s] page_num page_width = [mkHeading s page_num page_width]) ∧
    ((pyStrip s.text).length = 100 → 10 ≤ s.size → isBoldSpan s = true →
        extractHeadingsFromPage [s] page_num page_width = [mkHeading s page_num page_width]) := by
  constructor
  · intro h1 h2 h3 h4 _ h6
    have hf := spanFilter_eq_some page_num page_width s h1 h2 h3 ⟨le_of_eq h4.symm, Or.inr h6⟩
    simp [extractHeadingsFromPage, List.filterMap_cons, hf]
  · intro h1 h2 h3
    have hne : pyStrip s.text ≠ [] := by
      intro hc
      rw [hc] at h1
      simp at h1
    have hf := spanFilter_eq_some page_num page_width s hne (by omega) (by omega) ⟨h2, Or.inl h3⟩
    simp [extractHeadingsFromPage, List.filterMap_cons, hf]

/-- Witness for C9 at a size-10 centered span and a bold 100-character
span. -/
theorem boundary_values_kept_witness :
    extractHeadingsFromPage [c9SpanA] 1 100 = [mkHeading c9SpanA 1 100] ∧
      extractHeadingsFromPage [c9SpanB] 1 100 = [mkHeading c9SpanB 1 100] :=
  ⟨(boundary_values_kept c9SpanA 1 100).1 (by decide) (by decide) (by decide) (by decide)
      (by decide) (by decide),
    (boundary_values_kept c9SpanB 1 100).2 (by decide) (by decide) (by decide)⟩

/-- **C10**: the centering test is strict: a span whose horizontal
midpoint lies at a distance of exactly `0.1 * page_width` from the page
center is not centered. -/
theorem centered_strict_at_tolerance (x0 x1 page_width : ℚ)
    (h : |(x0 + x1) / 2 - page_width / 2| = page_width * 0.1) :
    isTextCentered x0 x1 page_width 0.1 = false := by
  show decide (|(x0 + x1) / 2 - page_width / 2| < page_width * 0.1) = false
  rw [decide_eq_false_iff_not, h]
  exact lt_irrefl _

/-- Witness for C10: midpoint 60 on a page of width 100 lies at distance
exactly 10 from the center. -/
theorem centered_strict_at_tolerance_witness :
    isTextCentered 50 70 100 0.1 = false :=
  centered_strict_at_tolerance 50 70 100 (by decide)

/-- The seed of a max fold bounds it from below. -/
theorem le_foldl_max (t : List ℚ) : ∀ a : ℚ, a ≤ t.foldl max a := by
  induction t with
  | nil => intro a; exact le_refl a
  | cons b t ih => intro a; exact le_trans (le_max_left a b) (ih (max a b))

/-- Every member of the folded list bounds a max fold from below. -/
theorem mem_le_foldl_max (t : List ℚ) : ∀ (a x : ℚ), x ∈ t → x ≤ t.foldl max a := by
  induction t with
  | nil => intro a x hx; cases hx
  | cons b t ih =>
    intro a x hx
    rcases List.mem_cons.mp hx with rfl | hx
    · exact le_trans (le_max_right a x) (le_foldl_max t _)
    · exact ih _ x hx

/-- `listMax` bounds every member of its list. -/
theorem mem_le_listMax (l : List ℚ) (x : ℚ) (hx : x ∈ l) : x ≤ listMax l := by
  cases l with
  | nil => cases hx
  | cons a t =>
    rcases List.mem_cons.mp hx with rfl | hx
    · exact le_foldl_max t x
    · exact mem_le_foldl_max t a x hx

/-- The seed of a min fold bounds it from above. -/
theorem foldl_min_le (t : List ℚ) : ∀ a : ℚ, t.foldl min a ≤ a := by
  induction t with
  | nil => intro a; exact le_refl a
  | cons b t ih => intro a; exact le_trans (ih (min a b)) (min_le_left a b)

/-- A min fold is bounded by every member of the folded list. -/
theorem foldl_min_le_mem (t : List ℚ) : ∀ (a x : ℚ), x ∈ t → t.foldl min a ≤ x := by
  induction t with
  | nil => intro a x hx; cases hx
  | cons b t ih =>
    intro a x hx
    rcases List.mem_cons.mp hx with rfl | hx
    · exact le_trans (foldl_min_le t _) (min_le_right a x)
    · exact ih _ x hx

/-- `listMin` is bounded by every member of its list. -/
theorem listMin_le_mem (l : List ℚ) (x : ℚ) (hx : x ∈ l) : listMin l ≤ x := by
  cases l with
  | nil => cases hx
  | cons a t =>
    rcases List.mem_cons.mp hx with rfl | hx
    · exact foldl_min_le t x
    · exact foldl_min_le_mem t a x hx

/-- The classifier's output is sorted by its final key order. -/
theorem classifyHeadings_pairwise (headings : List HeadingInfo) :
    (classifyHeadings headings).Pairwise pageLevelOrd := by
  cases headings with
  | nil => exact List.Pairwise.nil
  | cons h t => exact List.sorted_insertionSort pageLevelOrd _

/-- **C2**: the layout rank classification is monotone in font size: of
two candidates classified in one call, the one with the strictly larger
font size never gets a lower rank (with H1 < H2 < H3 and the fixed 0.7
and 0.4 thresholds). -/
theorem classify_monotone_in_size (headings : List HeadingInfo) (a b : HeadingInfo)
    (ha : a ∈ classifyHeadings headings) (hb : b ∈ classifyHeadings headings)
    (hab : b.font_size < a.font_size) :
    levelRank a.level ≤ levelRank b.level := by
  cases headings with
  | nil => simp [classifyHeadings] at ha
  | cons h0 t0 =>
    simp only [classifyHeadings, List.mem_insertionSort] at ha hb
    set sorted : List HeadingInfo := (h0 :: t0).insertionSort sizeDescOrd with hsorted
    set sizes : List ℚ := sorted.map fun h => h.font_size with hsizes
    set maxS := listMax sizes with hmaxS
    set minS := listMin sizes with hminS
    by_cases hr : maxS - minS = 0
    · rw [if_pos hr] at ha hb
      obtain ⟨a0, ha0, rfl⟩ := List.mem_map.mp ha
      obtain ⟨b0, hb0, rfl⟩ := List.mem_map.mp hb
      have hafs : (assignByFormat a0).font_size = a0.font_size := rfl
      have hbfs : (assignByFormat b0).font_size = b0.font_size := rfl
      have haM : a0.font_size ≤ maxS := by
        rw [hmaxS]
        exact mem_le_listMax sizes _ (by rw [hsizes]; exact List.mem_map_of_mem _ ha0)
      have hbm : minS ≤ b0.font_size := by
        rw [hminS]
        exact listMin_le_mem sizes _ (by rw [hsizes]; exact List.mem_map_of_mem _ hb0)
      rw [hafs, hbfs] at hab
      linarith
    · rw [if_neg hr] at ha hb
      obtain ⟨a0, ha0, rfl⟩ := List.mem_map.mp ha
      obtain ⟨b0, hb0, rfl⟩ := List.mem_map.mp hb
      have hafs : (assignBySize minS (maxS - minS) a0).font_size = a0.font_size := rfl
      have hbfs : (assignBySize minS (maxS - minS) b0).font_size = b0.font_size := rfl
      have haM : a0.font_size ≤ maxS := by
        rw [hmaxS]
        exact mem_le_listMax sizes _ (by rw [hsizes]; exact List.mem_map_of_mem _ ha0)
      have hbm : minS ≤ b0.font_size := by
        rw [hminS]
        exact listMin_le_mem sizes _ (by rw [hsizes]; exact List.mem_map_of_mem _ hb0)
      rw [hafs, hbfs] at hab
      have hrange : 0 < maxS - minS := lt_of_le_of_ne (by linarith) (Ne.symm hr)
      simp only [assignBySize]
      set na := (a0.font_size - minS) / (maxS - minS) with hna
      set nb := (b0.font_size - minS) / (maxS - minS) with hnb
      have hnab : nb < na := by
        rw [hna, hnb, div_lt_div_iff₀ hrange hrange]
        exact mul_lt_mul_of_pos_right (by linarith) hrange
      split_ifs <;> first | decide | linarith

/-- Witness for C2 on two bold headings of sizes 20 and 10. -/
theorem classify_monotone_in_size_witness :
    levelRank (HeadingInfo.mk "H1" ("Big".toList) 1 20 true false).level ≤
      levelRank (HeadingInfo.mk "H3" ("Small".toList) 1 10 true false).level :=
  classify_monotone_in_size
    [⟨"", "Big".toList, 1, 20, true, false⟩, ⟨"", "Small".toList, 1, 10, true, false⟩]
    ⟨"H1", "Big".toList, 1, 20, true, false⟩ ⟨"H3", "Small".toList, 1, 10, true, false⟩
    (by decide) (by decide) (by decide)

/-- **C7**: the layout pipeline's outline is ordered ascending by page
number and, within a page, by level with H1 before H2 before H3. -/
theorem layout_outline_sorted (d : Document) (out : DocumentOutline)
    (h : extractLayoutBased d = .ok out) :
    out.outline.Pairwise fun x y =>
      x.page < y.page ∨ (x.page = y.page ∧ levelRank x.level ≤ levelRank y.level) := by
  rcases hd : d.pages with _ | ⟨p0, rest⟩
  · simp [extractLayoutBased, hd] at h
  · rcases hsp : p0.spans with _ | s0
    · simp [extractLayoutBased, hd, hsp] at h
    · rcases hcol : collectHeadings (p0 :: rest) p0.width 1 with e | hs
      · simp [extractLayoutBased, hd, hsp, hcol] at h
      · simp only [extractLayoutBased, hd, hsp, hcol] at h
        have hout := (Except.ok.inj h).symm
        subst hout
        apply List.Pairwise.map
        · intro x y hxy
          exact hxy
        · exact classifyHeadings_pairwise hs

/-- Witness for C7 on a one-page document with one bold heading. -/
theorem layout_outline_sorted_witness :
    ([⟨"H2", "Overview".toList, 1⟩] : List OutlineEntry).Pairwise
      (fun x y => x.page < y.page ∨ (x.page = y.page ∧ levelRank x.level ≤ levelRank y.level)) :=
  layout_outline_sorted w7Doc
    ⟨untitledTitle, [⟨"H2", "Overview".toList, 1⟩]⟩ rfl

/-- **C6**: the OCR heading test rejects a purely numeric line, a line
whose length lies outside `[3, 80]`, and the case-insensitive words page,
continued and the three-dot ellipsis; it accepts any other line iff it
matches all-caps, a numbered heading, or Title-Case; and an accepted
line is ranked H1 when all-uppercase and shorter than 30 characters,
else H2 when it has a numbered prefix, else H3. -/
theorem ocr_heading_test_and_rank (text : List Char) :
    (looksLikeHeading text = true ↔
      (matchPureNumber text = false ∧ 3 ≤ text.length ∧ text.length ≤ 80 ∧
        pyLower text ∉ rejectWords ∧
        (matchAllCaps text = true ∨ matchNumberedCap text = true ∨
          matchTitleCase text = true))) ∧
    (looksLikeHeading text = true →
      classifyOcrHeading text =
        if pyIsUpper text = true ∧ text.length < 30 then "H1"
        else if matchNumberedDot text then "H2"
        else "H3") := by
  refine ⟨?_, fun _ => rfl⟩
  unfold looksLikeHeading
  split_ifs with h1 h2 h3
  · simp [h1]
  · constructor
    · intro hc
      exact absurd hc (by simp)
    · rintro ⟨-, hl1, hl2, -⟩
      exfalso
      omega
  · constructor
    · intro hc
      exact absurd hc (by simp)
    · rintro ⟨-, -, -, hw, -⟩
      exact absurd h3 hw
  · rw [not_or] at h2
    simp only [Bool.or_eq_true, eq_false_of_ne_true h1, true_and]
    constructor
    · intro hp
      exact ⟨by omega, by omega, h3, or_assoc.mp hp⟩
    · rintro ⟨-, -, -, hp⟩
      exact or_assoc.mpr hp

/-- Witness for C6 at an all-caps line. -/
theorem ocr_heading_test_and_rank_witness :
    classifyOcrHeading ("INTRODUCTION".toList) =
      if pyIsUpper ("INTRODUCTION".toList) = true ∧ ("INTRODUCTION".toList).length < 30
      then "H1"
      else if matchNumberedDot ("INTRODUCTION".toList) then "H2"
      else "H3" :=
  (ocr_heading_test_and_rank ("INTRODUCTION".toList)).2 (by decide)

/-- Every line kept by the per-page OCR collection carries that page's
number. -/
theorem collectPageLines_page (blob : List Char) (n : ℕ) (li : OcrLine)
    (h : li ∈ collectPageLines blob n) : li.page = n := by
  simp only [collectPageLines] at h
  obtain ⟨line, hline, hf⟩ := List.mem_filterMap.mp h
  split_ifs at hf
  exact (Option.some.inj hf) ▸ rfl

/-- Lines collected from the page tail numbered from `n` live on pages
`≥ n`. -/
theorem collectOcrLines_page_ge : ∀ (pages : List Page) (n : ℕ) (li : OcrLine),
    li ∈ collectOcrLines pages n → n ≤ li.page := by
  intro pages
  induction pages with
  | nil =>
    intro n li h
    simp [collectOcrLines] at h
  | cons p rest ih =>
    intro n li h
    rcases hocr : p.ocrText with _ | blob
    · simp only [collectOcrLines, hocr, List.nil_append] at h
      exact le_trans (Nat.le_succ n) (ih (n + 1) li h)
    · simp only [collectOcrLines, hocr] at h
      rcases List.mem_append.mp h with h | h
      · exact le_of_eq (collectPageLines_page blob n li h).symm
      · exact le_trans (Nat.le_succ n) (ih (n + 1) li h)

/-- The OCR line collection is ordered by ascending page number. -/
theorem collectOcrLines_pairwise : ∀ (pages : List Page) (n : ℕ),
    (collectOcrLines pages n).Pairwise fun x y => x.page ≤ y.page := by
  intro pages
  induction pages with
  | nil => intro n; exact List.Pairwise.nil
  | cons p rest ih =>
    intro n
    rcases hocr : p.ocrText with _ | blob
    · simp only [collectOcrLines, hocr, List.nil_append]
      exact ih (n + 1)
    · simp only [collectOcrLines, hocr]
      rw [List.pairwise_append]
      refine ⟨?_, ih (n + 1), ?_⟩
      · apply List.pairwise_of_forall_mem_list
        intro x hx y hy
        rw [collectPageLines_page blob n x hx, collectPageLines_page blob n y hy]
      · intro x hx y hy
        rw [collectPageLines_page blob n x hx]
        exact le_trans (Nat.le_succ n) (collectOcrLines_page_ge rest (n + 1) y hy)

/-- **C8**: the OCR pipeline's outline is the order-preserving filter of
the collected OCR lines — encounter order, page ascending then original
line order, with no re-sort by level — and its page numbers ascend. -/
theorem ocr_outline_encounter_order (d : Document) (out : DocumentOutline)
    (h : extractOcrBased d = .ok out) :
    out.outline =
      (collectOcrLines d.pages 1).filterMap (fun li =>
        if looksLikeHeading li.text then
          some ⟨classifyOcrHeading li.text, li.text, li.page⟩
        else none) ∧
    out.outline.Pairwise fun x y => x.page ≤ y.page := by
  rcases hd : d.pages with _ | ⟨p0, rest⟩
  · simp [extractOcrBased, hd] at h
  · simp only [extractOcrBased, hd] at h
    have hout := (Except.ok.inj h).symm
    subst hout
    constructor
    · rfl
    · refine List.Pairwise.filterMap _ ?_ (collectOcrLines_pairwise (p0 :: rest) 1)
      intro a a' haa b hb b' hb'
      split_ifs at hb hb'
      · rw [Option.mem_def] at hb hb'
        rw [← Option.some.inj hb, ← Option.some.inj hb']
        exact haa
      · exact absurd hb' (by simp)
      · exact absurd hb (by simp)
      · exact absurd hb (by simp)

/-- Witness for C8 on a one-page OCR document with two heading lines. -/
theorem ocr_outline_encounter_order_witness :
    w8Out.outline =
      (collectOcrLines w8Doc.pages 1).filterMap (fun li =>
        if looksLikeHeading li.text then
          some ⟨classifyOcrHeading li.text, li.text, li.page⟩
        else none) ∧
    w8Out.outline.Pairwise (fun x y => x.page ≤ y.page) :=
  ocr_outline_encounter_order w8Doc w8Out rfl

/-- Every candidate collected by the layout heading loop passed the
size/bold/centered keep-test, visible in its stored fields. -/
theorem collectHeadings_ok_mem_keep :
    ∀ (pages : List Page) (w : ℚ) (n : ℕ) (hs : List HeadingInfo),
      collectHeadings pages w n = .ok hs → ∀ h ∈ hs,
        10 ≤ h.font_size ∧ (h.is_bold = true ∨ h.is_centered = true) := by
  intro pages
  induction pages with
  | nil =>
    intro w n hs hok h hmem
    simp only [collectHeadings] at hok
    cases Except.ok.inj hok
    cases hmem
  | cons p rest ih =>
    intro w n hs hok h hmem
    rcases hsp : p.spans with _ | spans
    · simp [collectHeadings, hsp] at hok
    · rcases hrec : collectHeadings rest w (n + 1) with e | hs'
      · simp [collectHeadings, hsp, hrec] at hok
      · simp only [collectHeadings, hsp, hrec] at hok
        cases Except.ok.inj hok
        rcases List.mem_append.mp hmem with hm | hm
        · obtain ⟨s, hsmem, hf⟩ := List.mem_filterMap.mp hm
          obtain ⟨rfl, hk⟩ := spanFilter_some_inv n w s h hf
          exact hk
        · exact ih w (n + 1) hs' hrec h hm

/-- Every heading kept from the page at index `i` of the loop's page
list appears among the collected candidates. -/
theorem collectHeadings_ok_chunk_subset :
    ∀ (pages : List Page) (w : ℚ) (n : ℕ) (hs : List HeadingInfo) (i : ℕ)
      (pg : Page) (spans : List Span),
      collectHeadings pages w n = .ok hs → pages[i]? = some pg → pg.spans = some spans →
      ∀ h ∈ extractHeadingsFromPage spans (n + i) w, h ∈ hs := by
  intro pages
  induction pages with
  | nil =>
    intro w n hs i pg spans hok hget
    simp at hget
  | cons p rest ih =>
    intro w n hs i pg spans hok hget hsp h hmem
    rcases hps : p.spans with _ | spans0
    · simp [collectHeadings, hps] at hok
    · rcases hrec : collectHeadings rest w (n + 1) with e | hs'
      · simp [collectHeadings, hps, hrec] at hok
      · simp only [collectHeadings, hps, hrec] at hok
        cases Except.ok.inj hok
        cases i with
        | zero =>
          have hpg : p = pg := by simpa using hget
          subst hpg
          rw [hps] at hsp
          cases Option.some.inj hsp
          refine List.mem_append.mpr (Or.inl ?_)
          simpa using hmem
        | succ j =>
          have hg2 : rest[j]? = some pg := by simpa using hget
          have heq : n + (j + 1) = n + 1 + j := by omega
          rw [heq] at hmem
          exact List.mem_append.mpr (Or.inr (ih w (n + 1) hs' j pg spans hrec hg2 hsp h hmem))

/-- **C1 (amended)**: the layout pipeline keeps a length-admissible span
iff its font size is `≥ 10` and it is bold or centered, where the
centering of every page's spans is computed against the width captured
from the first page — not against the span's own page width. -/
theorem layout_keep_uses_first_page_width
    (d : Document) (first_page : Page) (rest : List Page)
    (hpages : d.pages = first_page :: rest)
    (hs : List HeadingInfo)
    (hok : collectHeadings d.pages first_page.width 1 = .ok hs)
    (i : ℕ) (pg : Page) (spans : List Span) (s : Span)
    (hget : d.pages[i]? = some pg) (hsp : pg.spans = some spans) (hmem : s ∈ spans)
    (h1 : pyStrip s.text ≠ []) (h2 : 3 ≤ (pyStrip s.text).length)
    (h3 : (pyStrip s.text).length ≤ 100) :
    mkHeading s (1 + i) first_page.width ∈ hs ↔
      10 ≤ s.size ∧
        (isBoldSpan s = true ∨ isTextCentered s.x0 s.x1 first_page.width 0.1 = true) := by
  constructor
  · intro hin
    exact collectHeadings_ok_mem_keep d.pages first_page.width 1 hs hok _ hin
  · intro hk
    have hf := spanFilter_eq_some (1 + i) first_page.width s h1 h2 h3 hk
    have hchunk : mkHeading s (1 + i) first_page.width ∈
        extractHeadingsFromPage spans (1 + i) first_page.width :=
      List.mem_filterMap.mpr ⟨s, hmem, hf⟩
    exact collectHeadings_ok_chunk_subset d.pages first_page.width 1 hs i pg spans
      hok hget hsp _ hchunk

/-- Witness for the amended C1 on a one-page document with one bold
span. -/
theorem layout_keep_uses_first_page_width_witness :
    mkHeading w7Span (1 + 0) (100 : ℚ) ∈ [mkHeading w7Span 1 100] :=
  (layout_keep_uses_first_page_width w7Doc ⟨100, 200, some [w7Span], none⟩ []
      rfl [mkHeading w7Span 1 100] rfl 0 ⟨100, 200, some [w7Span], none⟩ [w7Span] w7Span
      rfl rfl (by decide) (by decide) (by decide) (by decide)).mpr (by decide)

/-- **Counterexample to C1 as stated**: on a document whose second page
is wider than its first, a plain span sitting exactly at the center of
its own page passes the claim's keep-test (font size `≥ 10`, centered
with the page's own width, length admissible), yet the pipeline collects
no heading candidate at all, because the source computes centering with
the first page's width for every page. -/
theorem layout_keep_page_specific_width_cex :
    keepSpanSpec c1Span c1PageTwo.width = true ∧
      c1Doc.pages[1]? = some c1PageTwo ∧
      c1PageTwo.spans = some [c1Span] ∧
      pyStrip c1Span.text ≠ [] ∧
      3 ≤ (pyStrip c1Span.text).length ∧
      (pyStrip c1Span.text).length ≤ 100 ∧
      collectHeadings c1Doc.pages c1PageOne.width 1 = .ok [] ∧
      extractLayoutBased c1Doc = .ok ⟨untitledTitle, []⟩ :=
  ⟨by decide, by decide, by decide, by decide, by decide, by decide, rfl, rfl⟩

end PdfOutline
